import Mathlib

/-!
Verification development for the Birdy flight tracker.

The live tracking path (scraper/main.py, class FlightTracker) and the batch
segmentation path (scraper/create_database.py, group_positions_into_flights)
are embedded shallowly:

* Python dicts keyed by icao24 become association lists with replace-or-append
  insertion (preserving insertion order, like Python dicts).
* SQLite rows of raw_positions become the Row structure; `DATE(collection_time)`
  becomes Euclidean division of the integer timestamp by 86400.
* Optional/nullable Python values become Option; Python truthiness of the
  on_ground field (None and False are falsy) is the function truthy.
* Floating point scalars are modelled as rationals where only comparisons and
  maxima occur, and the haversine distance is modelled over the reals.
* A Python exception (indexing an empty position buffer) is modelled by an
  Option result.
-/

namespace Birdy

/-- Python truthiness of a nullable boolean: None and False are falsy. -/
def truthy : Option Bool → Bool
  | some b => b
  | none => false

/-- Live flight status stored in tracking_data["flight_status"]
(main.py: "ground", "takeoff", "airborne", "landed"). -/
inductive Status where
  | ground
  | takeoff
  | airborne
  | landed
deriving DecidableEq, Repr

/-- Endpoint status of a flight record ('ground' / 'airborne'). -/
inductive GA where
  | ground
  | airborne
deriving DecidableEq, Repr

/-- flight_status of a flight record ('complete' / 'partial'). -/
inductive FStatus where
  | complete
  | partialEp
deriving DecidableEq, Repr

/-- One element of the OpenSky states array (main.py parse_aircraft_state).
`nfields` is the Python list length len(state); the semantic fields are the
entries the tracker reads. -/
structure RawState where
  nfields : Nat
  icao24 : String
  callsign : Option String
  origin_country : Option String
  longitude : Option ℚ
  latitude : Option ℚ
  baro_altitude : Option ℚ
  on_ground : Option Bool
  velocity : Option ℚ
  true_track : Option ℚ
  vertical_rate : Option ℚ
deriving DecidableEq

/-- The parsed aircraft dict built by parse_aircraft_state (main.py lines
69-94); `timestamp` is datetime.now at parse time, passed in as `now`. -/
structure Report where
  icao24 : String
  callsign : String
  origin_country : Option String
  longitude : Option ℚ
  latitude : Option ℚ
  baro_altitude : Option ℚ
  on_ground : Option Bool
  velocity : Option ℚ
  true_track : Option ℚ
  vertical_rate : Option ℚ
  timestamp : Int
deriving DecidableEq

/-- Python str.strip(): remove leading and trailing whitespace. -/
def stripStr (s : String) : String :=
  String.mk
    (((s.data.dropWhile Char.isWhitespace).reverse.dropWhile
      Char.isWhitespace).reverse)

/-- main.py lines 69-94: return None when len(state) < 17, else the dict;
callsign is state[1].strip() if state[1] else "". -/
def parse_aircraft_state (now : Int) (s : RawState) : Option Report :=
  if s.nfields < 17 then none
  else some
    { icao24 := s.icao24
      callsign := stripStr (s.callsign.getD "")
      origin_country := s.origin_country
      longitude := s.longitude
      latitude := s.latitude
      baro_altitude := s.baro_altitude
      on_ground := s.on_ground
      velocity := s.velocity
      true_track := s.true_track
      vertical_rate := s.vertical_rate
      timestamp := now }

/-- One entry of self.tracking_aircraft (main.py start_tracking_aircraft). -/
structure Session where
  icao24 : String
  callsign : String
  origin_country : Option String
  tracking_start_time : Int
  last_update_time : Int
  flight_status : Status
  takeoff_time : Option Int
  positions : List Report
deriving DecidableEq

/-- self.tracking_aircraft: a Python dict icao24 → tracking data, modelled as
an insertion-ordered association list. -/
abbrev Tracker := List (String × Session)

/-- Python dict assignment d[k] = v: replace in place if the key exists,
otherwise append. -/
def upsert {α : Type} (m : List (String × α)) (k : String) (v : α) :
    List (String × α) :=
  if m.any (fun p => p.1 == k) then m.map (fun p => if p.1 == k then (k, v) else p)
  else m ++ [(k, v)]

/-- Python dict lookup d.get(k). -/
def lookupKey {α : Type} (m : List (String × α)) (k : String) : Option α :=
  (m.find? (fun p => p.1 == k)).map Prod.snd

/-- main.py lines 96-118: aircraft that are on ground, have both coordinates,
have a non-empty callsign and are not already tracked. -/
def find_new_ground_aircraft (now : Int) (states : List RawState)
    (tracker : Tracker) : List Report :=
  (states.filterMap (parse_aircraft_state now)).filter
    (fun a => truthy a.on_ground && a.longitude.isSome && a.latitude.isSome &&
      a.callsign != "" && (lookupKey tracker a.icao24).isNone)

/-- main.py lines 120-135: the fresh tracking_data dict for a new aircraft. -/
def start_tracking_aircraft (a : Report) : Session :=
  { icao24 := a.icao24
    callsign := a.callsign
    origin_country := a.origin_country
    tracking_start_time := a.timestamp
    last_update_time := a.timestamp
    flight_status := Status.ground
    takeoff_time := none
    positions := [a] }

/-- main.py lines 159-164: the current_aircraft dict built per tick from the
parsed states (later occurrences of an icao24 overwrite earlier ones). -/
def current_aircraft_map (now : Int) (states : List RawState) :
    List (String × Report) :=
  (states.filterMap (parse_aircraft_state now)).foldl
    (fun m a => upsert m a.icao24 a) []

/-- main.py lines 186-226 (update_single_aircraft).  The source indexes
tracking_data["positions"][-1] in the ground/not-on-ground branch, which
raises on an empty buffer; that failure is the `none` result.  A session
already in the landed state matches no branch and only has its
last_update_time refreshed. -/
def update_single_aircraft (td : Session) (r : Report) : Option Session :=
  match td.flight_status, truthy r.on_ground with
  | Status.ground, false =>
    match td.positions.getLast? with
    | none => none
    | some lg =>
      some { td with
        flight_status := Status.takeoff
        takeoff_time := some r.timestamp
        positions := [lg, r]
        last_update_time := r.timestamp }
  | Status.takeoff, false =>
    some { td with
      flight_status := Status.airborne
      positions := td.positions ++ [r]
      last_update_time := r.timestamp }
  | Status.airborne, false =>
    some { td with
      flight_status := Status.airborne
      positions := td.positions ++ [r]
      last_update_time := r.timestamp }
  | Status.takeoff, true =>
    some { td with
      flight_status := Status.landed
      positions := td.positions ++ [r]
      last_update_time := r.timestamp }
  | Status.airborne, true =>
    some { td with
      flight_status := Status.landed
      positions := td.positions ++ [r]
      last_update_time := r.timestamp }
  | Status.ground, true =>
    some { td with
      positions := [r]
      last_update_time := r.timestamp }
  | Status.landed, _ =>
    some { td with last_update_time := r.timestamp }

/-- The per-entry loop of main.py lines 169-180: entries absent from
current_aircraft are untouched; present entries go through
update_single_aircraft. -/
def update_entries (cur : List (String × Report)) :
    List (String × Session) → Option (List (String × Session))
  | [] => some []
  | (k, s) :: rest =>
    match lookupKey cur k with
    | none => (update_entries cur rest).map (fun l => (k, s) :: l)
    | some r =>
      match update_single_aircraft s r with
      | none => none
      | some s2 => (update_entries cur rest).map (fun l => (k, s2) :: l)

/-- A session that was updated this tick (its icao24 is in current_aircraft)
and reached the landed state: main.py line 175. -/
def landed_in_batch (cur : List (String × Report)) (p : String × Session) : Bool :=
  (lookupKey cur p.1).isSome && p.2.flight_status == Status.landed

/-- main.py lines 157-184 plus save_completed_flight (lines 248-297): all
tracked entries are updated, landed ones are flushed and removed, and the
flushed sessions with at least 2 buffered positions are the ones that yield a
persisted flight record. -/
def update_tracked_aircraft (tracker : Tracker) (cur : List (String × Report)) :
    Option (Tracker × List (String × Session)) :=
  match update_entries cur tracker with
  | none => none
  | some updated =>
    let remaining := updated.filter (fun p => !(landed_in_batch cur p))
    let flushed := (updated.filter (landed_in_batch cur)).filter
      (fun p => decide (2 ≤ p.2.positions.length))
    some (remaining, flushed)

/-- main.py line 439: stale_threshold = timedelta(hours=2), in seconds. -/
def stale_threshold : Int := 7200

/-- main.py lines 436-450: collect the stale icao24s, then delete each from
the tracking dict.  No flight record is produced here. -/
def cleanup_stale_tracking (tracker : Tracker) (now : Int) : Tracker :=
  let stale := (tracker.filter
    (fun p => decide (now - p.2.last_update_time > stale_threshold))).map Prod.fst
  stale.foldl (fun t k => t.filter (fun p => p.1 != k)) tracker

/-- One tick (main.py run_tracking_cycle, lines 452-489): find and insert new
ground aircraft, update all tracked aircraft against the same batch, then
reap stale sessions.  The flushed sessions are the episodes of the tick. -/
def run_tracking_cycle (tracker : Tracker) (states : List RawState) (now : Int) :
    Option (Tracker × List (String × Session)) :=
  match update_tracked_aircraft
      ((find_new_ground_aircraft now states tracker).foldl
        (fun t a => upsert t a.icao24 (start_tracking_aircraft a)) tracker)
      (current_aircraft_map now states) with
  | none => none
  | some (t2, flushed) => some (cleanup_stale_tracking t2 now, flushed)

/-- Python max() over a list of rationals, None when the list is empty. -/
def maxQ (l : List ℚ) : Option ℚ :=
  match l with
  | [] => none
  | x :: xs => some (xs.foldl max x)

/-- DATE(collection_time): the UTC calendar day of an integer timestamp. -/
def dayOf (t : Int) : Int := Int.ediv t 86400

/-- main.py lines 394-409, the haversine body on non-null inputs:
coordinates in degrees are converted to radians, a = sin(dlat/2)^2 +
cos(lat1) cos(lat2) sin(dlon/2)^2, c = 2 asin(sqrt a), result c * 6371. -/
noncomputable def haversine (lat1 lon1 lat2 lon2 : ℝ) : ℝ :=
  let l1 := lat1 * Real.pi / 180
  let o1 := lon1 * Real.pi / 180
  let l2 := lat2 * Real.pi / 180
  let o2 := lon2 * Real.pi / 180
  let dlat := l2 - l1
  let dlon := o2 - o1
  let a := Real.sin (dlat / 2) ^ 2 +
    Real.cos l1 * Real.cos l2 * Real.sin (dlon / 2) ^ 2
  2 * Real.arcsin (Real.sqrt a) * 6371

/-- main.py lines 394-409 (calculate_distance): None when any coordinate is
None, otherwise the haversine distance. -/
noncomputable def calculate_distance (lat1 lon1 lat2 lon2 : Option ℚ) :
    Option ℝ :=
  match lat1, lon1, lat2, lon2 with
  | some a, some b, some c, some d =>
    some (haversine (a : ℝ) (b : ℝ) (c : ℝ) (d : ℝ))
  | _, _, _, _ => none

open Classical in
/-- The accumulation loop of main.py lines 375-391: walk consecutive pairs,
guard on both endpoints having non-null latitude and longitude, and add the
distance when it is truthy (`if dist:` skips None and exact 0.0). -/
noncomputable def accum_distance : List Report → ℝ
  | [] => 0
  | [_] => 0
  | p :: q :: rest =>
    (if p.latitude.isSome && p.longitude.isSome &&
        q.latitude.isSome && q.longitude.isSome then
      match calculate_distance p.latitude p.longitude q.latitude q.longitude with
      | some d => if d ≠ 0 then d else 0
      | none => 0
    else 0) + accum_distance (q :: rest)

open Classical in
/-- main.py line 392: return total_distance if total_distance > 0 else None. -/
noncomputable def calculate_flight_distance (ps : List Report) : Option ℝ :=
  let total := accum_distance ps
  if total > 0 then some total else none

/-- The sum the spec describes for the DistanceAccumulator: haversine distance
over exactly the consecutive pairs whose two endpoints both carry non-null
coordinates, with no contribution from any other pair. -/
noncomputable def pair_distance_sum : List Report → ℝ
  | [] => 0
  | [_] => 0
  | p :: q :: rest =>
    (match p.latitude, p.longitude, q.latitude, q.longitude with
    | some a, some b, some c, some d =>
      haversine (a : ℝ) (b : ℝ) (c : ℝ) (d : ℝ)
    | _, _, _, _ => 0) + pair_distance_sum (q :: rest)

/-- The immutable flight record built by the live path (main.py
process_completed_flight, lines 311-371). -/
structure LiveFlight where
  icao24 : String
  callsign : String
  origin_country : Option String
  flight_date : Int
  departure_time : Int
  arrival_time : Int
  duration_minutes : Int
  start_status : GA
  end_status : GA
  flight_status : FStatus
  max_altitude : Option ℚ
  max_velocity : Option ℚ
  distance_km : Option ℝ
  position_count : Nat

/-- main.py lines 311-371: None below 2 positions; otherwise duration from
the first and last timestamps, maxima over the non-null baro_altitude and
velocity values, total distance, and the hardcoded ground/ground/complete
status fields. -/
noncomputable def process_completed_flight (td : Session) : Option LiveFlight :=
  match td.positions with
  | [] => none
  | [_] => none
  | f :: p2 :: rest =>
    let ps := f :: p2 :: rest
    let l := (p2 :: rest).getLast (List.cons_ne_nil p2 rest)
    some
      { icao24 := td.icao24
        callsign := td.callsign
        origin_country := td.origin_country
        flight_date := dayOf f.timestamp
        departure_time := f.timestamp
        arrival_time := l.timestamp
        duration_minutes := Int.tdiv (l.timestamp - f.timestamp) 60
        start_status := GA.ground
        end_status := GA.ground
        flight_status := FStatus.complete
        max_altitude := maxQ (ps.filterMap (fun p => p.baro_altitude))
        max_velocity := maxQ (ps.filterMap (fun p => p.velocity))
        distance_km := calculate_flight_distance ps
        position_count := ps.length }

/-- One row of the raw_positions table (create_database.py lines 78-103).
`rid` is the INTEGER PRIMARY KEY. -/
structure Row where
  rid : Nat
  icao24 : String
  callsign : Option String
  origin_country : Option String
  longitude : Option ℚ
  latitude : Option ℚ
  baro_altitude : Option ℚ
  geo_altitude : Option ℚ
  velocity : Option ℚ
  true_track : Option ℚ
  vertical_rate : Option ℚ
  on_ground : Option Bool
  collection_time : Int
  processed : Bool
deriving DecidableEq

/-- The raw_positions table. -/
abbrev Store := List Row

/-- A (icao24, callsign, calendar day) group key, as produced by the
GROUP BY of create_database.py lines 247-255. -/
structure GKey where
  icao24 : String
  callsign : String
  day : Int
deriving DecidableEq

/-- The key of an unprocessed row. -/
def keyOf (r : Row) : GKey :=
  { icao24 := r.icao24, callsign := r.callsign.getD "", day := dayOf r.collection_time }

/-- The WHERE clause of the grouping query: processed = FALSE AND callsign IS
NOT NULL AND callsign != ''. -/
def group_cond (r : Row) : Bool :=
  !r.processed && r.callsign.isSome && r.callsign != some ""

/-- The distinct (icao24, callsign, day) keys of the grouping query
(create_database.py lines 247-255). -/
def group_keys (st : Store) : List GKey :=
  ((st.filter group_cond).map keyOf).dedup

/-- The WHERE clause of the per-group query (create_database.py lines
266-275): same icao24, same callsign, same DATE(collection_time), and
processed = FALSE. -/
def matchKey (k : GKey) (r : Row) : Bool :=
  r.icao24 == k.icao24 && r.callsign == some k.callsign &&
    dayOf r.collection_time == k.day && !r.processed

/-- Insertion step for ORDER BY collection_time ASC. -/
def insertByTime (r : Row) : List Row → List Row
  | [] => [r]
  | x :: xs =>
    if r.collection_time ≤ x.collection_time then r :: x :: xs
    else x :: insertByTime r xs

/-- ORDER BY collection_time ASC. -/
def sortByTime : List Row → List Row
  | [] => []
  | x :: xs => insertByTime x (sortByTime xs)

/-- UPDATE raw_positions SET processed = TRUE WHERE id = ? over a list of ids
(create_database.py lines 343-346). -/
def markProcessed (st : Store) (ids : List Nat) : Store :=
  st.map (fun r => if r.rid ∈ ids then { r with processed := true } else r)

/-- The flight record inserted by group_positions_into_flights
(create_database.py lines 328-341). -/
structure BatchFlight where
  icao24 : String
  callsign : String
  origin_country : Option String
  flight_date : Int
  departure_time : Int
  arrival_time : Int
  duration_minutes : Int
  start_status : GA
  end_status : GA
  flight_status : FStatus
  max_altitude : Option ℚ
  max_velocity : Option ℚ
  position_count : Nat
  positions : List Row
deriving DecidableEq

/-- The per-group flight construction of create_database.py lines 282-341.
The statistics lines 304-305 of the source index columns 2 and 4 of the
SELECT of lines 266-275, which are latitude and geo_altitude (the trailing
comments of those lines say baro_altitude and velocity, which sit at columns
3 and 5): the embedding reproduces the indexes actually used.  The
flight_status chain is lines 296-301 verbatim. -/
def make_batch_flight (k : GKey) (ps : List Row) (h : 2 ≤ ps.length) :
    BatchFlight :=
  have hne : ps ≠ [] := by
    intro hnil
    rw [hnil] at h
    simp at h
  let first := ps.head hne
  let last := ps.getLast hne
  let start_status := if truthy first.on_ground then GA.ground else GA.airborne
  let end_status := if truthy last.on_ground then GA.ground else GA.airborne
  { icao24 := k.icao24
    callsign := k.callsign
    origin_country := first.origin_country
    flight_date := k.day
    departure_time := first.collection_time
    arrival_time := last.collection_time
    duration_minutes := Int.tdiv (last.collection_time - first.collection_time) 60
    start_status := start_status
    end_status := end_status
    flight_status :=
      if start_status = GA.ground ∧ end_status = GA.ground then FStatus.complete
      else if start_status = GA.airborne ∧ end_status = GA.airborne then
        FStatus.partialEp
      else if start_status = GA.ground ∨ end_status = GA.ground then
        FStatus.complete
      else FStatus.partialEp
    max_altitude := maxQ (ps.filterMap (fun r => r.latitude))
    max_velocity := maxQ (ps.filterMap (fun r => r.geo_altitude))
    position_count := ps.length
    positions := ps }

/-- The main loop of group_positions_into_flights (create_database.py lines
262-351): for each group key, fetch its unprocessed rows ordered by time,
skip the group below 2 rows, otherwise emit one flight and mark the rows
processed. -/
def process_groups : List GKey → Store → Store × List BatchFlight
  | [], st => (st, [])
  | k :: ks, st =>
    let ps := sortByTime (st.filter (matchKey k))
    if h : ps.length < 2 then process_groups ks st
    else
      let fl := make_batch_flight k ps (by omega)
      let st2 := markProcessed st (ps.map (fun r => r.rid))
      let rec2 := process_groups ks st2
      (rec2.1, fl :: rec2.2)

/-- create_database.py lines 241-357: the whole batch segmentation pass,
returning the updated store and the created flight records. -/
def group_positions_into_flights (st : Store) : Store × List BatchFlight :=
  process_groups (group_keys st) st

/-! Concrete inputs used to evaluate the embedded code. -/

/-- A baseline unprocessed row for one aircraft and callsign. -/
def baseRow (i : Nat) (t : Int) : Row :=
  { rid := i, icao24 := "abc123", callsign := some "BAW1",
    origin_country := some "UK", longitude := some 1, latitude := some 50,
    baro_altitude := some 1000, geo_altitude := some 1010,
    velocity := some 100, true_track := some 90, vertical_rate := some 0,
    on_ground := some true, collection_time := t, processed := false }

/-- Four reports of one (icao24, callsign, day) at t = 0, 1, 2 and 300
minutes (in seconds): the gap-correctness input of the spec. -/
def storeGap : Store :=
  [baseRow 1 0, baseRow 2 60, baseRow 3 120, baseRow 4 18000]

/-- A second report observed airborne. -/
def airRow : Row :=
  { baseRow 2 60 with on_ground := some false }

/-- Two reports whose endpoints are on ground and airborne. -/
def storeMixed : Store :=
  [baseRow 1 0, airRow]

/-- A row whose latitude, baro_altitude, geo_altitude and velocity values are
pairwise distinct, to separate the SELECT columns. -/
def colsRow1 : Row :=
  { baseRow 1 0 with
    latitude := some 10
    baro_altitude := some 1000
    geo_altitude := some 5
    velocity := some 100 }

/-- A second such row with larger values throughout. -/
def colsRow2 : Row :=
  { baseRow 2 60 with
    latitude := some 20
    baro_altitude := some 2000
    geo_altitude := some 6
    velocity := some 200 }

/-- Two reports separating the SELECT columns of the batch statistics. -/
def storeCols : Store :=
  [colsRow1, colsRow2]

/-- A live report with every optional scalar present. -/
def baseReport (t : Int) : Report :=
  { icao24 := "abc123", callsign := "BAW1", origin_country := some "UK",
    longitude := some 1, latitude := some 50, baro_altitude := some 1000,
    on_ground := some true, velocity := some 100, true_track := some 90,
    vertical_rate := some 0, timestamp := t }

/-- A live report with baro_altitude 1000 and velocity 100. -/
def colsReport1 : Report :=
  { baseReport 0 with
    baro_altitude := some 1000
    velocity := some 100 }

/-- A live report with baro_altitude 2000 and velocity 200. -/
def colsReport2 : Report :=
  { baseReport 60 with
    baro_altitude := some 2000
    velocity := some 200 }

/-- A live session holding two reports with distinct baro_altitude and
velocity values. -/
def sessionCols : Session :=
  { icao24 := "abc123", callsign := "BAW1", origin_country := some "UK",
    tracking_start_time := 0, last_update_time := 60,
    flight_status := Status.landed, takeoff_time := some 60,
    positions := [colsReport1, colsReport2] }

/-- A raw state above the minimum field count whose coordinates and
on_ground entry are all missing. -/
def blankState : RawState :=
  { nfields := 17, icao24 := "abc123", callsign := some "BAW1",
    origin_country := some "UK", longitude := none, latitude := none,
    baro_altitude := none, on_ground := none, velocity := none,
    true_track := none, vertical_rate := none }

/-- A raw state above the minimum field count with all tracking-relevant
fields present and the aircraft on ground. -/
def groundState : RawState :=
  { nfields := 17, icao24 := "abc123", callsign := some "BAW1",
    origin_country := some "UK", longitude := some 1, latitude := some 50,
    baro_altitude := some 0, on_ground := some true, velocity := some 0,
    true_track := some 90, vertical_rate := some 0 }

/-- A ground session for the aircraft of blankState, holding one buffered
report. -/
def groundSession : Session :=
  { icao24 := "abc123", callsign := "BAW1", origin_country := some "UK",
    tracking_start_time := 0, last_update_time := 0,
    flight_status := Status.ground, takeoff_time := none,
    positions := [baseReport 0] }

/-- An airborne live report at t = 60. -/
def airReport : Report :=
  { baseReport 60 with on_ground := some false }

/-- A raw state below the 17-field minimum. -/
def shortState : RawState :=
  { blankState with nfields := 16 }

/-- A raw state for an unrelated aircraft. -/
def zzzState : RawState :=
  { groundState with icao24 := "zzz999" }

/-- The report parse_aircraft_state produces from groundState at time 0. -/
def groundReport : Report :=
  { icao24 := "abc123", callsign := "BAW1", origin_country := some "UK",
    longitude := some 1, latitude := some 50, baro_altitude := some 0,
    on_ground := some true, velocity := some 0, true_track := some 90,
    vertical_rate := some 0, timestamp := 0 }

/-- The number of unprocessed rows of the store matching a group key. -/
def countMatch (k : GKey) (st : Store) : Nat :=
  (st.filter (matchKey k)).length

/-- Per-group description of the batch output: one flight per group key whose
unprocessed rows, sorted ascending by collection_time, number at least 2; the
flight carries all of the group's rows. -/
def batch_flights_spec (st : Store) : List BatchFlight :=
  (group_keys st).filterMap (fun k =>
    let ps := sortByTime (st.filter (matchKey k))
    if h : 2 ≤ ps.length then some (make_batch_flight k ps h) else none)

/-! Lemmas about the batch segmentation pass. -/

theorem length_insertByTime (r : Row) (l : List Row) :
    (insertByTime r l).length = l.length + 1 := by
  induction l with
  | nil => rfl
  | cons x xs ih =>
    simp only [insertByTime]
    split
    · simp
    · simp [ih]

theorem mem_insertByTime (x r : Row) (l : List Row) :
    x ∈ insertByTime r l ↔ x = r ∨ x ∈ l := by
  induction l with
  | nil => simp [insertByTime]
  | cons y ys ih =>
    simp only [insertByTime]
    split
    · simp [List.mem_cons]
    · simp only [List.mem_cons, ih]
      tauto

theorem length_sortByTime (l : List Row) : (sortByTime l).length = l.length := by
  induction l with
  | nil => rfl
  | cons x xs ih => simp [sortByTime, length_insertByTime, ih]

theorem mem_sortByTime (x : Row) (l : List Row) : x ∈ sortByTime l ↔ x ∈ l := by
  induction l with
  | nil => simp [sortByTime]
  | cons y ys ih =>
    simp only [sortByTime, mem_insertByTime, List.mem_cons, ih]

theorem pairwise_insertByTime (r : Row) (l : List Row)
    (h : l.Pairwise (fun a b => a.collection_time ≤ b.collection_time)) :
    (insertByTime r l).Pairwise (fun a b => a.collection_time ≤ b.collection_time) := by
  induction l with
  | nil => simp [insertByTime]
  | cons x xs ih =>
    rcases List.pairwise_cons.mp h with ⟨hx, hxs⟩
    simp only [insertByTime]
    split
    · rename_i hle
      refine List.pairwise_cons.mpr ⟨?_, h⟩
      intro y hy
      rcases List.mem_cons.mp hy with rfl | hy2
      · exact hle
      · exact le_trans hle (hx y hy2)
    · rename_i hnle
      refine List.pairwise_cons.mpr ⟨?_, ih hxs⟩
      intro y hy
      rcases (mem_insertByTime y r xs).mp hy with rfl | hy2
      · omega
      · exact hx y hy2

theorem sorted_sortByTime (l : List Row) :
    (sortByTime l).Pairwise (fun a b => a.collection_time ≤ b.collection_time) := by
  induction l with
  | nil => simp [sortByTime]
  | cons x xs ih => exact pairwise_insertByTime x (sortByTime xs) ih

theorem markProcessed_nil (st : Store) : markProcessed st [] = st := by
  simp [markProcessed]

theorem rid_markProcessed (st : Store) (ids : List Nat) :
    (markProcessed st ids).map (fun r => r.rid) = st.map (fun r => r.rid) := by
  unfold markProcessed
  rw [List.map_map]
  apply List.map_congr_left
  intro r _
  by_cases h : r.rid ∈ ids <;> simp [h]

theorem markProcessed_append (st : Store) (a b : List Nat) :
    markProcessed (markProcessed st a) b = markProcessed st (a ++ b) := by
  unfold markProcessed
  rw [List.map_map]
  apply List.map_congr_left
  intro r _
  by_cases ha : r.rid ∈ a <;> by_cases hb : r.rid ∈ b <;>
    simp [ha, hb]

theorem matchKey_marked (k : GKey) (r : Row) :
    matchKey k { r with processed := true } = false := by
  simp [matchKey]

theorem countMatch_cons_le (k : GKey) (r : Row) (rs : Store) :
    countMatch k rs ≤ countMatch k (r :: rs) := by
  unfold countMatch
  rw [List.filter_cons]
  split <;> simp

theorem countMatch_markProcessed_le (k : GKey) (st : Store) (ids : List Nat) :
    countMatch k (markProcessed st ids) ≤ countMatch k st := by
  induction st with
  | nil => simp [markProcessed, countMatch]
  | cons r rs ih =>
    have hstep : markProcessed (r :: rs) ids =
        (if r.rid ∈ ids then { r with processed := true } else r) ::
          markProcessed rs ids := by
      simp [markProcessed]
    rw [hstep]
    by_cases h : r.rid ∈ ids
    · rw [if_pos h]
      unfold countMatch
      rw [List.filter_cons, List.filter_cons]
      rw [matchKey_marked]
      simp only [Bool.false_eq_true, if_neg, reduceIte]
      split
      · simp [countMatch] at ih ⊢
        omega
      · exact ih
    · rw [if_neg h]
      unfold countMatch
      rw [List.filter_cons, List.filter_cons]
      split
      · simp only [List.length_cons]
        have := ih
        unfold countMatch at this
        omega
      · exact ih

theorem countMatch_markProcessed_eq_zero (k : GKey) (st : Store) (ids : List Nat)
    (h : ∀ r ∈ st, matchKey k r = true → r.rid ∈ ids) :
    countMatch k (markProcessed st ids) = 0 := by
  induction st with
  | nil => simp [markProcessed, countMatch]
  | cons r rs ih =>
    have hstep : markProcessed (r :: rs) ids =
        (if r.rid ∈ ids then { r with processed := true } else r) ::
          markProcessed rs ids := by
      simp [markProcessed]
    rw [hstep]
    have htail : ∀ r2 ∈ rs, matchKey k r2 = true → r2.rid ∈ ids := by
      intro r2 hr2 hm
      exact h r2 (List.mem_cons_of_mem r hr2) hm
    by_cases hin : r.rid ∈ ids
    · rw [if_pos hin]
      unfold countMatch
      rw [List.filter_cons, matchKey_marked]
      simp only [Bool.false_eq_true, reduceIte]
      exact ih htail
    · rw [if_neg hin]
      have hnm : matchKey k r = false := by
        by_contra hc
        exact hin (h r (List.mem_cons_self r rs) (by simpa using hc))
      unfold countMatch
      rw [List.filter_cons, hnm]
      simp only [Bool.false_eq_true, reduceIte]
      exact ih htail

theorem process_groups_fst_mark (ks : List GKey) (st : Store) :
    ∃ ids, (process_groups ks st).1 = markProcessed st ids := by
  induction ks generalizing st with
  | nil => exact ⟨[], by simp [process_groups, markProcessed_nil]⟩
  | cons k ks ih =>
    simp only [process_groups]
    split
    · exact ih st
    · obtain ⟨ids2, hids2⟩ :=
        ih (markProcessed st ((sortByTime (st.filter (matchKey k))).map (fun r => r.rid)))
      refine ⟨(sortByTime (st.filter (matchKey k))).map (fun r => r.rid) ++ ids2, ?_⟩
      simp only [hids2, markProcessed_append]

theorem countMatch_process_groups_le (k : GKey) (ks : List GKey) (st : Store) :
    countMatch k (process_groups ks st).1 ≤ countMatch k st := by
  obtain ⟨ids, hids⟩ := process_groups_fst_mark ks st
  rw [hids]
  exact countMatch_markProcessed_le k st ids

theorem countMatch_sort_filter (k : GKey) (st : Store) :
    (sortByTime (st.filter (matchKey k))).length = countMatch k st := by
  unfold countMatch
  exact length_sortByTime _

theorem countMatch_after_own (k : GKey) (st : Store) :
    countMatch k (markProcessed st
      ((sortByTime (st.filter (matchKey k))).map (fun r => r.rid))) = 0 := by
  apply countMatch_markProcessed_eq_zero
  intro r hr hm
  have hmem : r ∈ sortByTime (st.filter (matchKey k)) :=
    (mem_sortByTime r _).mpr (List.mem_filter.mpr ⟨hr, hm⟩)
  exact List.mem_map_of_mem (fun r => r.rid) hmem

theorem countMatch_le_one_of_mem (k : GKey) (ks : List GKey) (st : Store)
    (hk : k ∈ ks) : countMatch k (process_groups ks st).1 ≤ 1 := by
  induction ks generalizing st with
  | nil => simp at hk
  | cons k0 ks ih =>
    simp only [process_groups]
    split
    · rename_i hlt
      by_cases he : k = k0
      · subst he
        have hle : countMatch k st ≤ 1 := by
          rw [← countMatch_sort_filter k st]
          omega
        calc countMatch k (process_groups ks st).1
            ≤ countMatch k st := countMatch_process_groups_le k ks st
          _ ≤ 1 := hle
      · rcases List.mem_cons.mp hk with h1 | h2
        · exact absurd h1 he
        · exact ih st h2
    · by_cases he : k = k0
      · subst he
        calc countMatch k (process_groups ks _).1
            ≤ countMatch k (markProcessed st
                ((sortByTime (st.filter (matchKey k))).map (fun r => r.rid))) :=
              countMatch_process_groups_le k ks _
          _ = 0 := countMatch_after_own k st
          _ ≤ 1 := by omega
      · rcases List.mem_cons.mp hk with h1 | h2
        · exact absurd h1 he
        · exact ih _ h2

theorem mem_group_keys_of_match (k : GKey) (st : Store) (hcs : k.callsign ≠ "")
    (r : Row) (hr : r ∈ st) (hm : matchKey k r = true) : k ∈ group_keys st := by
  unfold group_keys
  apply List.mem_dedup.mpr
  apply List.mem_map.mpr
  simp only [matchKey, Bool.and_eq_true, beq_iff_eq, Bool.not_eq_true',
    decide_eq_true_eq] at hm
  obtain ⟨⟨⟨h1, h2⟩, h3⟩, h4⟩ := hm
  refine ⟨r, List.mem_filter.mpr ⟨hr, ?_⟩, ?_⟩
  · simp only [group_cond, h2, h4, Bool.not_false, Option.isSome_some,
      Bool.and_eq_true, bne_iff_ne, ne_eq, Option.some.injEq, true_and]
    exact hcs
  · cases k
    simp only [keyOf, h1, h2, h3, Option.getD_some]

theorem callsign_ne_of_mem_group_keys (k : GKey) (st : Store)
    (hk : k ∈ group_keys st) : k.callsign ≠ "" := by
  unfold group_keys at hk
  obtain ⟨r, hr, hkey⟩ := List.mem_map.mp (List.mem_dedup.mp hk)
  have hc := (List.mem_filter.mp hr).2
  simp only [group_cond, Bool.and_eq_true, bne_iff_ne, ne_eq,
    Option.isSome_iff_exists] at hc
  obtain ⟨⟨_, c, hcsome⟩, hne⟩ := hc
  subst hkey
  simp only [keyOf, hcsome, Option.getD_some]
  intro hceq
  exact hne (by rw [hcsome, hceq])

theorem countMatch_eq_zero_of_not_mem (k : GKey) (st : Store)
    (hcs : k.callsign ≠ "") (h : k ∉ group_keys st) : countMatch k st = 0 := by
  by_contra hnz
  have hpos : 0 < (st.filter (matchKey k)).length := by
    unfold countMatch at hnz
    omega
  obtain ⟨r, hr⟩ := List.exists_mem_of_length_pos hpos
  have hmem := List.mem_filter.mp hr
  exact h (mem_group_keys_of_match k st hcs r hmem.1 hmem.2)

theorem process_groups_snd_nil (ks : List GKey) (st : Store)
    (h : ∀ k ∈ ks, countMatch k st ≤ 1) : (process_groups ks st).2 = [] := by
  induction ks generalizing st with
  | nil => simp [process_groups]
  | cons k0 ks ih =>
    simp only [process_groups]
    split
    · exact ih st (fun k hk => h k (List.mem_cons_of_mem k0 hk))
    · rename_i hge
      exfalso
      have h0 := h k0 (List.mem_cons_self k0 ks)
      rw [← countMatch_sort_filter k0 st] at h0
      omega

theorem matchKey_key_eq (k k2 : GKey) (r : Row) (h1 : matchKey k r = true)
    (h2 : matchKey k2 r = true) : k = k2 := by
  simp only [matchKey, Bool.and_eq_true, beq_iff_eq] at h1 h2
  obtain ⟨⟨⟨a1, b1⟩, c1⟩, -⟩ := h1
  obtain ⟨⟨⟨a2, b2⟩, c2⟩, -⟩ := h2
  cases k
  cases k2
  simp only [GKey.mk.injEq]
  exact ⟨a1.symm.trans a2, Option.some.inj (b1.symm.trans b2), c1.symm.trans c2⟩

theorem filter_markProcessed_of_no_match (k2 : GKey) (st : Store) (ids : List Nat)
    (h : ∀ r ∈ st, matchKey k2 r = true → r.rid ∉ ids) :
    (markProcessed st ids).filter (matchKey k2) = st.filter (matchKey k2) := by
  induction st with
  | nil => rfl
  | cons r rs ih =>
    have htail : ∀ r3 ∈ rs, matchKey k2 r3 = true → r3.rid ∉ ids := by
      intro r3 hr3 hm
      exact h r3 (List.mem_cons_of_mem r hr3) hm
    have hstep : markProcessed (r :: rs) ids =
        (if r.rid ∈ ids then { r with processed := true } else r) ::
          markProcessed rs ids := by
      simp [markProcessed]
    rw [hstep]
    by_cases hin : r.rid ∈ ids
    · have hnm : matchKey k2 r = false := by
        by_contra hc
        exact h r (List.mem_cons_self r rs) (by simpa using hc) hin
      rw [if_pos hin, List.filter_cons, List.filter_cons, matchKey_marked, hnm]
      simp only [Bool.false_eq_true, reduceIte]
      exact ih htail
    · rw [if_neg hin, List.filter_cons, List.filter_cons]
      split
      · rw [ih htail]
      · exact ih htail

theorem rids_of_group (k : GKey) (st : Store) (r : Row) (hr : r ∈ st)
    (hnodup : (st.map (fun r => r.rid)).Nodup)
    (hin : r.rid ∈ (sortByTime (st.filter (matchKey k))).map (fun r => r.rid)) :
    matchKey k r = true := by
  obtain ⟨r2, hr2, hrid⟩ := List.mem_map.mp hin
  have hr2f := (mem_sortByTime r2 _).mp hr2
  have hr2mem := List.mem_filter.mp hr2f
  have heq : r2 = r :=
    List.inj_on_of_nodup_map hnodup hr2mem.1 hr hrid
  exact heq ▸ hr2mem.2

theorem process_groups_snd_spec (ks : List GKey) (st : Store)
    (hnodup : (st.map (fun r => r.rid)).Nodup) (hks : ks.Nodup) :
    (process_groups ks st).2 = ks.filterMap (fun k =>
      let ps := sortByTime (st.filter (matchKey k))
      if h : 2 ≤ ps.length then some (make_batch_flight k ps h) else none) := by
  induction ks generalizing st with
  | nil => simp [process_groups]
  | cons k0 ks ih =>
    have hk0 : k0 ∉ ks := (List.nodup_cons.mp hks).1
    have hksn : ks.Nodup := (List.nodup_cons.mp hks).2
    simp only [process_groups, List.filterMap_cons]
    split
    · rename_i hlt
      have hn2 : ¬ 2 ≤ (sortByTime (st.filter (matchKey k0))).length := by omega
      rw [dif_neg hn2]
      exact ih st hnodup hksn
    · rename_i hge
      have h2 : 2 ≤ (sortByTime (st.filter (matchKey k0))).length := by omega
      rw [dif_pos h2]
      have hnodup2 : ((markProcessed st
          ((sortByTime (st.filter (matchKey k0))).map (fun r => r.rid))).map
            (fun r => r.rid)).Nodup := by
        rw [rid_markProcessed]
        exact hnodup
      rw [ih _ hnodup2 hksn]
      simp only [List.cons.injEq, true_and]
      apply List.filterMap_congr
      intro k hk
      have hfeq : (markProcessed st
          ((sortByTime (st.filter (matchKey k0))).map (fun r => r.rid))).filter
            (matchKey k) = st.filter (matchKey k) := by
        apply filter_markProcessed_of_no_match
        intro r hr hm hin
        have hm0 : matchKey k0 r = true := rids_of_group k0 st r hr hnodup hin
        have : k = k0 := matchKey_key_eq k k0 r hm hm0
        exact hk0 (this ▸ hk)
      rw [hfeq]

/-! Claim theorems for the batch segmentation path. -/

/-- C1 counterexample: on reports of one (icao24, callsign, day) at t = 0, 1,
2 and 300 minutes, group_positions_into_flights emits exactly one flight
record, and that record contains all four reports including the one at
t = 300 min — it does not split at the 4-hour gap and does not drop the
t = 300 singleton, contradicting the claimed gap segmentation. -/
theorem C1_counterexample :
    (group_positions_into_flights storeGap).2.map
      (fun f => f.positions.map (fun r => r.collection_time)) =
      [[0, 60, 120, 18000]] := by
  rfl

/-- C1 amended: group_positions_into_flights performs no gap-based
splitting.  On a store with distinct row ids it emits exactly one flight per
(icao24, callsign, day) group whose unprocessed rows number at least 2, and
that flight contains all of the group's rows sorted ascending by
collection_time; groups with fewer than 2 rows emit nothing. -/
theorem C1_theorem (st : Store) (hnodup : (st.map (fun r => r.rid)).Nodup) :
    (group_positions_into_flights st).2 = batch_flights_spec st ∧
    ∀ fl ∈ (group_positions_into_flights st).2,
      fl.positions.Pairwise (fun a b => a.collection_time ≤ b.collection_time) := by
  have hchar : (group_positions_into_flights st).2 = batch_flights_spec st := by
    unfold group_positions_into_flights batch_flights_spec
    exact process_groups_snd_spec (group_keys st) st hnodup (List.nodup_dedup _)
  refine ⟨hchar, ?_⟩
  intro fl hfl
  rw [hchar] at hfl
  unfold batch_flights_spec at hfl
  obtain ⟨k, _, hsome⟩ := List.mem_filterMap.mp hfl
  simp only at hsome
  split at hsome
  · have hpos : fl.positions = sortByTime (st.filter (matchKey k)) := by
      cases hsome
      rfl
    rw [hpos]
    exact sorted_sortByTime _
  · exact absurd hsome (by simp)

/-- C1 witness: the amended characterization evaluated on the concrete
four-report store. -/
theorem C1_witness :
    (storeGap.map (fun r => r.rid)).Nodup ∧
    ((group_positions_into_flights storeGap).2 = batch_flights_spec storeGap ∧
    ∀ fl ∈ (group_positions_into_flights storeGap).2,
      fl.positions.Pairwise (fun a b => a.collection_time ≤ b.collection_time)) :=
  ⟨by decide, C1_theorem storeGap (by decide)⟩

/-- C2 counterexample: a two-report group whose first report is on ground and
whose last report is airborne yields flight_status complete, not partial,
so flight_status is not equivalent to both endpoints having on_ground
true. -/
theorem C2_counterexample :
    (group_positions_into_flights storeMixed).2.map
      (fun f => (f.flight_status, f.positions.map (fun r => truthy r.on_ground))) =
      [(FStatus.complete, [true, false])] := by
  rfl

/-- C2 amended: a batch episode's flight_status is complete if and only if at
least one of its two endpoints has a truthy on_ground flag; it is partial
exactly when both endpoints are airborne. -/
theorem C2_theorem (k : GKey) (ps : List Row) (h : 2 ≤ ps.length)
    (hne : ps ≠ []) :
    (make_batch_flight k ps h).flight_status = FStatus.complete ↔
      (truthy (ps.head hne).on_ground = true ∨
        truthy (ps.getLast hne).on_ground = true) := by
  unfold make_batch_flight
  by_cases t1 : truthy (ps.head hne).on_ground <;>
    by_cases t2 : truthy (ps.getLast hne).on_ground <;>
      simp [t1, t2]

/-- C2 witness: the amended rule evaluated on the concrete mixed-endpoint
store. -/
theorem C2_witness :
    (make_batch_flight (GKey.mk "abc123" "BAW1" 0) storeMixed
      (by decide)).flight_status = FStatus.complete :=
  (C2_theorem (GKey.mk "abc123" "BAW1" 0) storeMixed (by decide)
    (by decide)).mpr (Or.inl (by decide))

/-- C3: evaluating both summarizers on reports whose latitude, baro_altitude,
geo_altitude and velocity are pairwise distinct.  The batch path returns the
maximum latitude (20) as max_altitude and the maximum geo_altitude (6) as
max_velocity, while the stored rows carry baro_altitude 1000/2000 and
velocity 100/200; the live path returns the correct maxima 2000 and 200.
This exhibits the off-by-one column indexes of create_database.py lines
304-305 against their own comments. -/
theorem C3_code_bug_eval :
    (group_positions_into_flights storeCols).2.map
        (fun f => (f.max_altitude, f.max_velocity)) = [(some 20, some 6)] ∧
    storeCols.map (fun r => (r.baro_altitude, r.velocity)) =
      [(some 1000, some 100), (some 2000, some 200)] ∧
    (process_completed_flight sessionCols).map
        (fun f => (f.max_altitude, f.max_velocity)) =
      some (some 2000, some 200) := by
  refine ⟨by rfl, by rfl, by rfl⟩

/-! Lemmas about the association-list operations of the live path. -/

theorem mem_upsert {α : Type} (m : List (String × α)) (k : String) (v : α)
    (p : String × α) (h : p ∈ upsert m k v) : p ∈ m ∨ p = (k, v) := by
  unfold upsert at h
  split at h
  · obtain ⟨q, hq, hpq⟩ := List.mem_map.mp h
    by_cases hk : q.1 == k
    · right
      rw [if_pos hk] at hpq
      exact hpq.symm
    · left
      rw [if_neg hk] at hpq
      exact hpq ▸ hq
  · rcases List.mem_append.mp h with h1 | h2
    · left
      exact h1
    · right
      simpa using h2

theorem keys_upsert {α : Type} (m : List (String × α)) (k : String) (v : α) :
    (upsert m k v).map Prod.fst =
      if k ∈ m.map Prod.fst then m.map Prod.fst else m.map Prod.fst ++ [k] := by
  unfold upsert
  by_cases hk : m.any (fun p => p.1 == k)
  · rw [if_pos hk]
    have hmem : k ∈ m.map Prod.fst := by
      obtain ⟨p, hp, hpk⟩ := List.any_eq_true.mp hk
      exact (beq_iff_eq.mp hpk) ▸ List.mem_map_of_mem Prod.fst hp
    rw [if_pos hmem, List.map_map]
    apply List.map_congr_left
    intro q _
    by_cases h : q.1 == k
    · simp only [Function.comp_apply, if_pos h]
      exact (beq_iff_eq.mp h).symm
    · simp only [Function.comp_apply, if_neg h]
  · rw [if_neg hk]
    have hnot : k ∉ m.map Prod.fst := by
      intro hmem
      obtain ⟨p, hp, hpk⟩ := List.mem_map.mp hmem
      exact hk (List.any_eq_true.mpr ⟨p, hp, by simp [hpk]⟩)
    rw [if_neg hnot]
    simp

theorem nodup_keys_upsert {α : Type} (m : List (String × α)) (k : String) (v : α)
    (h : (m.map Prod.fst).Nodup) : ((upsert m k v).map Prod.fst).Nodup := by
  rw [keys_upsert]
  split
  · exact h
  · rename_i hnot
    rw [List.nodup_append]
    exact ⟨h, List.nodup_singleton k, by simpa using hnot⟩

theorem mem_keys_upsert {α : Type} (m : List (String × α)) (k k2 : String) (v : α)
    (h : k2 ∈ (upsert m k v).map Prod.fst) : k2 ∈ m.map Prod.fst ∨ k2 = k := by
  rw [keys_upsert] at h
  split at h
  · exact Or.inl h
  · rcases List.mem_append.mp h with h1 | h2
    · exact Or.inl h1
    · exact Or.inr (by simpa using h2)

theorem lookupKey_eq_none {α : Type} (m : List (String × α)) (k : String) :
    lookupKey m k = none ↔ k ∉ m.map Prod.fst := by
  unfold lookupKey
  rw [Option.map_eq_none']
  rw [List.find?_eq_none]
  constructor
  · intro h hmem
    obtain ⟨p, hp, hpk⟩ := List.mem_map.mp hmem
    exact absurd (by simp [hpk] : (p.1 == k) = true) (by simpa using h p hp)
  · intro h p hp
    simp only [beq_iff_eq]
    intro he
    exact h (he ▸ List.mem_map_of_mem Prod.fst hp)

theorem mem_foldl_upsert_report (l : List Report) (m : List (String × Report))
    (p : String × Report)
    (h : p ∈ l.foldl (fun m a => upsert m a.icao24 a) m) :
    p ∈ m ∨ ∃ a ∈ l, p = (a.icao24, a) := by
  induction l generalizing m with
  | nil => exact Or.inl h
  | cons a l ih =>
    rcases ih (upsert m a.icao24 a) h with h1 | h2
    · rcases mem_upsert m a.icao24 a p h1 with h3 | h4
      · exact Or.inl h3
      · exact Or.inr ⟨a, List.mem_cons_self a l, h4⟩
    · obtain ⟨a2, ha2, hp⟩ := h2
      exact Or.inr ⟨a2, List.mem_cons_of_mem a ha2, hp⟩

theorem keys_foldl_insert_session (l : List Report) (t : Tracker) (k : String)
    (hk : k ∈ (l.foldl
      (fun t a => upsert t a.icao24 (start_tracking_aircraft a)) t).map Prod.fst) :
    k ∈ t.map Prod.fst ∨ ∃ a ∈ l, a.icao24 = k := by
  induction l generalizing t with
  | nil => exact Or.inl hk
  | cons a l ih =>
    rcases ih (upsert t a.icao24 (start_tracking_aircraft a)) hk with h1 | h2
    · rcases mem_keys_upsert t a.icao24 k (start_tracking_aircraft a) h1 with h3 | h4
      · exact Or.inl h3
      · exact Or.inr ⟨a, List.mem_cons_self a l, h4.symm⟩
    · obtain ⟨a2, ha2, hp⟩ := h2
      exact Or.inr ⟨a2, List.mem_cons_of_mem a ha2, hp⟩

theorem nodup_keys_foldl_insert_session (l : List Report) (t : Tracker)
    (h : (t.map Prod.fst).Nodup) :
    ((l.foldl
      (fun t a => upsert t a.icao24 (start_tracking_aircraft a)) t).map Prod.fst).Nodup := by
  induction l generalizing t with
  | nil => exact h
  | cons a l ih =>
    exact ih _ (nodup_keys_upsert t a.icao24 (start_tracking_aircraft a) h)

theorem update_entries_cons_inv (cur : List (String × Report)) (k : String)
    (s : Session) (rest : List (String × Session)) (l2 : List (String × Session))
    (h : update_entries cur ((k, s) :: rest) = some l2) :
    ∃ s2 l3, update_entries cur rest = some l3 ∧ l2 = (k, s2) :: l3 ∧
      ((lookupKey cur k = none ∧ s2 = s) ∨
        (∃ r, lookupKey cur k = some r ∧ update_single_aircraft s r = some s2)) := by
  simp only [update_entries] at h
  split at h
  · rename_i heq
    obtain ⟨l3, hl3, hcons⟩ := Option.map_eq_some'.mp h
    exact ⟨s, l3, hl3, hcons.symm, Or.inl ⟨heq, rfl⟩⟩
  · rename_i r heq
    split at h
    · exact absurd h (by simp)
    · rename_i s2 hup
      obtain ⟨l3, hl3, hcons⟩ := Option.map_eq_some'.mp h
      exact ⟨s2, l3, hl3, hcons.symm, Or.inr ⟨r, heq, hup⟩⟩

theorem update_entries_keys (cur : List (String × Report))
    (l l2 : List (String × Session)) (h : update_entries cur l = some l2) :
    l2.map Prod.fst = l.map Prod.fst := by
  induction l generalizing l2 with
  | nil =>
    simp only [update_entries, Option.some.injEq] at h
    rw [← h]
  | cons p rest ih =>
    obtain ⟨k, s⟩ := p
    obtain ⟨s2, l3, hl3, hcons, -⟩ := update_entries_cons_inv cur k s rest l2 h
    rw [hcons]
    simp only [List.map_cons]
    rw [ih l3 hl3]

theorem lookupKey_cons_self {α : Type} (k : String) (v : α)
    (m : List (String × α)) : lookupKey ((k, v) :: m) k = some v := by
  unfold lookupKey
  rw [List.find?_cons]
  simp

theorem lookupKey_cons_ne {α : Type} (k icao : String) (v : α)
    (m : List (String × α)) (h : k ≠ icao) :
    lookupKey ((k, v) :: m) icao = lookupKey m icao := by
  unfold lookupKey
  rw [List.find?_cons]
  have hb : ((k, v).1 == icao) = false := by simp [h]
  rw [hb]

theorem lookup_filtered_update (cur : List (String × Report))
    (l l2 : List (String × Session)) (icao : String)
    (hnone : lookupKey cur icao = none)
    (h : update_entries cur l = some l2) :
    lookupKey (l2.filter (fun p => !(landed_in_batch cur p))) icao =
      lookupKey l icao := by
  induction l generalizing l2 with
  | nil =>
    simp only [update_entries, Option.some.injEq] at h
    rw [← h]
    rfl
  | cons p rest ih =>
    obtain ⟨k, s⟩ := p
    obtain ⟨s2, l3, hl3, hcons, hcase⟩ := update_entries_cons_inv cur k s rest l2 h
    rw [hcons]
    by_cases hk : k = icao
    · subst hk
      have hs2 : s2 = s := by
        rcases hcase with ⟨-, hs⟩ | ⟨r, hr, -⟩
        · exact hs
        · rw [hnone] at hr
          exact absurd hr (by simp)
      subst hs2
      have hkeep : landed_in_batch cur (k, s2) = false := by
        simp only [landed_in_batch, hnone]
        rfl
      rw [List.filter_cons, hkeep]
      simp only [Bool.not_false, reduceIte]
      rw [lookupKey_cons_self, lookupKey_cons_self]
    · have htail := ih l3 hl3
      rw [List.filter_cons]
      split
      · rw [lookupKey_cons_ne k icao s2 _ hk, lookupKey_cons_ne k icao s _ hk]
        exact htail
      · rw [lookupKey_cons_ne k icao s _ hk]
        exact htail

theorem mem_cleanup_foldl (ks : List String) (t : Tracker) (p : String × Session)
    (h : p ∈ ks.foldl (fun t k => t.filter (fun q => q.1 != k)) t) :
    p ∈ t ∧ p.1 ∉ ks := by
  induction ks generalizing t with
  | nil => exact ⟨h, by simp⟩
  | cons k ks ih =>
    obtain ⟨h1, h2⟩ := ih (t.filter (fun q => q.1 != k)) h
    have h3 := List.mem_filter.mp h1
    refine ⟨h3.1, ?_⟩
    simp only [List.mem_cons, not_or]
    exact ⟨by simpa using h3.2, h2⟩

theorem cleanup_mem (t : Tracker) (now : Int) (p : String × Session)
    (h : p ∈ cleanup_stale_tracking t now) :
    p ∈ t ∧ now - p.2.last_update_time ≤ stale_threshold := by
  unfold cleanup_stale_tracking at h
  obtain ⟨h1, h2⟩ := mem_cleanup_foldl _ t p h
  refine ⟨h1, ?_⟩
  by_contra hgt
  apply h2
  apply List.mem_map_of_mem Prod.fst
  apply List.mem_filter.mpr
  refine ⟨h1, ?_⟩
  simp only [decide_eq_true_eq]
  omega

theorem cleanup_removes (t : Tracker) (now : Int) (k : String) (s : Session)
    (hmem : (k, s) ∈ t) (hstale : now - s.last_update_time > stale_threshold) :
    ∀ p ∈ cleanup_stale_tracking t now, p.1 ≠ k := by
  intro p hp he
  unfold cleanup_stale_tracking at hp
  obtain ⟨_, h2⟩ := mem_cleanup_foldl _ t p hp
  apply h2
  rw [he]
  have hmf : (k, s) ∈ t.filter
      (fun p => decide (now - p.2.last_update_time > stale_threshold)) := by
    apply List.mem_filter.mpr
    refine ⟨hmem, ?_⟩
    simp only [decide_eq_true_eq]
    omega
  exact List.mem_map_of_mem Prod.fst hmf

theorem cleanup_sublist (t : Tracker) (now : Int) :
    (cleanup_stale_tracking t now).Sublist t := by
  unfold cleanup_stale_tracking
  generalize ((t.filter
    (fun p => decide (now - p.2.last_update_time > stale_threshold))).map Prod.fst) = ks
  induction ks generalizing t with
  | nil => simp
  | cons k ks ih =>
    simp only [List.foldl_cons]
    exact (ih (t.filter (fun q => q.1 != k))).trans (List.filter_sublist t)

/-! Lemmas about the distance accumulation. -/

theorem haversine_nonneg (a b c d : ℝ) : 0 ≤ haversine a b c d := by
  unfold haversine
  have h1 : 0 ≤ Real.arcsin (Real.sqrt
      (Real.sin ((c * Real.pi / 180 - a * Real.pi / 180) / 2) ^ 2 +
        Real.cos (a * Real.pi / 180) * Real.cos (c * Real.pi / 180) *
          Real.sin ((d * Real.pi / 180 - b * Real.pi / 180) / 2) ^ 2)) :=
    Real.arcsin_nonneg.mpr (Real.sqrt_nonneg _)
  nlinarith [h1]

theorem haversine_self (a b : ℝ) : haversine a b a b = 0 := by
  unfold haversine
  simp

theorem accum_eq_pair (ps : List Report) :
    accum_distance ps = pair_distance_sum ps := by
  induction ps with
  | nil => rfl
  | cons p rest ih =>
    cases rest with
    | nil => rfl
    | cons q rest2 =>
      simp only [accum_distance, pair_distance_sum]
      rw [ih]
      congr 1
      cases hpl : p.latitude <;> cases hpo : p.longitude <;>
        cases hql : q.latitude <;> cases hqo : q.longitude <;>
          simp [calculate_distance, hpl, hpo, hql, hqo]
      exact fun h => h.symm

theorem pair_sum_nonneg (ps : List Report) : 0 ≤ pair_distance_sum ps := by
  induction ps with
  | nil => simp [pair_distance_sum]
  | cons p rest ih =>
    cases rest with
    | nil => simp [pair_distance_sum]
    | cons q rest2 =>
      simp only [pair_distance_sum]
      apply add_nonneg _ ih
      cases p.latitude <;> cases p.longitude <;>
        cases q.latitude <;> cases q.longitude <;>
          simp [haversine_nonneg]

theorem pair_sum_pair_self (r : Report) (a b : ℚ) (hla : r.latitude = some a)
    (hlo : r.longitude = some b) : pair_distance_sum [r, r] = 0 := by
  simp only [pair_distance_sum, hla, hlo]
  simp [haversine_self]

/-- C6: the distance accumulator equals the haversine sum (Earth radius 6371
km) over exactly the consecutive pairs with both coordinates present; the
flight distance is none exactly when that sum is 0 and otherwise is the
positive sum; a live episode's distance_km is the flight distance of its
buffered reports; and two reports at identical coordinates yield a none
distance. -/
theorem C6_theorem :
    (∀ ps : List Report, accum_distance ps = pair_distance_sum ps) ∧
    (∀ ps : List Report,
      (calculate_flight_distance ps = none ↔ pair_distance_sum ps = 0) ∧
      (pair_distance_sum ps ≠ 0 →
        calculate_flight_distance ps = some (pair_distance_sum ps) ∧
          0 < pair_distance_sum ps)) ∧
    (∀ td : Session, ∀ fl : LiveFlight, process_completed_flight td = some fl →
      fl.distance_km = calculate_flight_distance td.positions) ∧
    (∀ r : Report, ∀ a b : ℚ, r.latitude = some a → r.longitude = some b →
      calculate_flight_distance [r, r] = none) := by
  have hchar : ∀ ps : List Report,
      (calculate_flight_distance ps = none ↔ pair_distance_sum ps = 0) ∧
      (pair_distance_sum ps ≠ 0 →
        calculate_flight_distance ps = some (pair_distance_sum ps) ∧
          0 < pair_distance_sum ps) := by
    intro ps
    have hnn := pair_sum_nonneg ps
    simp only [calculate_flight_distance, accum_eq_pair]
    constructor
    · constructor
      · intro hnone
        split at hnone
        · exact absurd hnone (by simp)
        · rename_i hng
          have : pair_distance_sum ps ≤ 0 := le_of_not_lt hng
          linarith
      · intro h0
        rw [h0]
        simp
    · intro hne
      have hpos : 0 < pair_distance_sum ps := lt_of_le_of_ne hnn (Ne.symm hne)
      rw [if_pos hpos]
      exact ⟨rfl, hpos⟩
  refine ⟨accum_eq_pair, hchar, ?_, ?_⟩
  · intro td fl hfl
    cases hps : td.positions with
    | nil => rw [process_completed_flight, hps] at hfl; exact absurd hfl (by simp)
    | cons f rest =>
      cases rest with
      | nil => rw [process_completed_flight, hps] at hfl; exact absurd hfl (by simp)
      | cons p2 rest2 =>
        rw [process_completed_flight, hps] at hfl
        simp only [Option.some.injEq] at hfl
        rw [← hfl]
  · intro r a b hla hlo
    exact (hchar [r, r]).1.mpr (pair_sum_pair_self r a b hla hlo)

/-- C6 witness: the identical-coordinates rule evaluated on a concrete
report. -/
theorem C6_witness :
    (baseReport 0).latitude = some 50 ∧ (baseReport 0).longitude = some 1 ∧
    calculate_flight_distance [baseReport 0, baseReport 0] = none :=
  ⟨rfl, rfl, C6_theorem.2.2.2 (baseReport 0) 50 1 rfl rfl⟩

/-- C10: running group_positions_into_flights a second time on the store left
behind by a first run creates zero additional flight records — the first run
marks every row it incorporates as processed and only unprocessed rows are
selected. -/
theorem C10_theorem (st : Store) :
    (group_positions_into_flights (group_positions_into_flights st).1).2 = [] := by
  apply process_groups_snd_nil
  intro k hk
  have hcs := callsign_ne_of_mem_group_keys k _ hk
  by_cases hmem : k ∈ group_keys st
  · exact countMatch_le_one_of_mem k (group_keys st) st hmem
  · have h0 : countMatch k st = 0 := countMatch_eq_zero_of_not_mem k st hcs hmem
    have hle : countMatch k (group_positions_into_flights st).1 ≤ countMatch k st :=
      countMatch_process_groups_le k (group_keys st) st
    omega

/-! Further lemmas and claim theorems for the live tracking path. -/

theorem parse_fields (now : Int) (st : RawState) (a : Report)
    (h : parse_aircraft_state now st = some a) :
    a.icao24 = st.icao24 ∧ 17 ≤ st.nfields ∧ a.on_ground = st.on_ground ∧
      a.latitude = st.latitude ∧ a.longitude = st.longitude ∧
      a.timestamp = now := by
  unfold parse_aircraft_state at h
  split at h
  · exact absurd h (by simp)
  · rename_i hn
    obtain rfl := Option.some.inj h
    exact ⟨rfl, by omega, rfl, rfl, rfl, rfl⟩

theorem lookup_cur_none (now : Int) (states : List RawState) (icao : String)
    (habs : ∀ st ∈ states, st.icao24 ≠ icao) :
    lookupKey (current_aircraft_map now states) icao = none := by
  apply (lookupKey_eq_none _ icao).mpr
  intro hmem
  obtain ⟨p, hp, hpk⟩ := List.mem_map.mp hmem
  rcases mem_foldl_upsert_report _ [] p hp with h1 | ⟨a, ha, hpa⟩
  · exact absurd h1 (List.not_mem_nil p)
  · obtain ⟨st, hst, hparse⟩ := List.mem_filterMap.mp ha
    have hic := (parse_fields now st a hparse).1
    apply habs st hst
    rw [← hic, ← hpk, hpa]

theorem update_tracked_inv (tracker : Tracker) (cur : List (String × Report))
    (tr2 : Tracker) (fl : List (String × Session))
    (h : update_tracked_aircraft tracker cur = some (tr2, fl)) :
    ∃ updated, update_entries cur tracker = some updated ∧
      tr2 = updated.filter (fun p => !(landed_in_batch cur p)) ∧
      fl = (updated.filter (landed_in_batch cur)).filter
        (fun p => decide (2 ≤ p.2.positions.length)) := by
  unfold update_tracked_aircraft at h
  split at h
  · exact absurd h (by simp)
  · rename_i updated hup
    obtain ⟨h1, h2⟩ := Prod.mk.injEq _ _ _ _ ▸ Option.some.inj h
    exact ⟨updated, hup, h1.symm, h2.symm⟩

theorem run_cycle_inv (tracker : Tracker) (states : List RawState) (now : Int)
    (t2 : Tracker) (fl : List (String × Session))
    (h : run_tracking_cycle tracker states now = some (t2, fl)) :
    ∃ t1, update_tracked_aircraft
        ((find_new_ground_aircraft now states tracker).foldl
          (fun t a => upsert t a.icao24 (start_tracking_aircraft a)) tracker)
        (current_aircraft_map now states) = some (t1, fl) ∧
      t2 = cleanup_stale_tracking t1 now := by
  unfold run_tracking_cycle at h
  split at h
  · exact absurd h (by simp)
  · rename_i t1 flx hup
    have hpair := Option.some.inj h
    have h1 : cleanup_stale_tracking t1 now = t2 := congrArg Prod.fst hpair
    have h2 : flx = fl := congrArg Prod.snd hpair
    exact ⟨t1, by rw [hup, h2], h1.symm⟩

/-- C4 counterexample: a 17-field snapshot with missing latitude, longitude
and on_ground for an already-tracked ground aircraft is not dropped: one tick
transitions the session's state machine from ground to takeoff and buffers
the coordinate-less report, so such reports do reach update_single_aircraft. -/
theorem C4_counterexample :
    (run_tracking_cycle [("abc123", groundSession)] [blankState] 0).map
      (fun res => res.1.map (fun p => (p.1, p.2.flight_status,
        p.2.positions.map (fun q => (q.latitude, q.longitude, q.on_ground))))) =
    some [("abc123", Status.takeoff,
      [(some 50, some 1, some true), (none, none, none)])] := by
  rfl

/-- C4 amended: only a snapshot with fewer than 17 fields is dropped at
ingestion; every entry of the per-tick lookup map (and hence every report
passed to update_single_aircraft) comes from a raw state with at least 17
fields, and the missing-coordinate, missing-on_ground and empty-callsign
checks gate only session creation (find_new_ground_aircraft), not session
update. -/
theorem C4_theorem :
    (∀ (now : Int) (s : RawState), s.nfields < 17 →
      parse_aircraft_state now s = none) ∧
    (∀ (now : Int) (states : List RawState) (p : String × Report),
      p ∈ current_aircraft_map now states →
      ∃ s ∈ states, 17 ≤ s.nfields ∧ parse_aircraft_state now s = some p.2) ∧
    (∀ (now : Int) (states : List RawState) (tracker : Tracker) (a : Report),
      a ∈ find_new_ground_aircraft now states tracker →
      truthy a.on_ground = true ∧ a.latitude.isSome = true ∧
        a.longitude.isSome = true ∧ a.callsign ≠ "" ∧
        lookupKey tracker a.icao24 = none) := by
  refine ⟨?_, ?_, ?_⟩
  · intro now s h
    unfold parse_aircraft_state
    rw [if_pos h]
  · intro now states p hp
    rcases mem_foldl_upsert_report _ [] p hp with h1 | ⟨a, ha, hpa⟩
    · exact absurd h1 (List.not_mem_nil p)
    · obtain ⟨s, hs, hparse⟩ := List.mem_filterMap.mp ha
      refine ⟨s, hs, (parse_fields now s a hparse).2.1, ?_⟩
      rw [hpa]
      exact hparse
  · intro now states tracker a ha
    have hmem := List.mem_filter.mp ha
    have hpred := hmem.2
    simp only [Bool.and_eq_true, bne_iff_ne, ne_eq, Option.isNone_iff_eq_none]
      at hpred
    obtain ⟨⟨⟨⟨h1, h2⟩, h3⟩, h4⟩, h5⟩ := hpred
    exact ⟨h1, h3, h2, h4, h5⟩

/-- C4 witness: the ingestion drop evaluated on a 16-field raw state. -/
theorem C4_witness : parse_aircraft_state 0 shortState = none :=
  C4_theorem.1 0 shortState (by decide)

/-- C5: update_single_aircraft follows the spec transition table exactly:
ground with airborne report goes to takeoff keeping only the last ground
report plus the new one; ground with ground report stays ground with only
the new report buffered; takeoff or airborne with airborne report goes to
airborne appending the report; takeoff or airborne with ground report goes
to landed appending the report; and after the update phase no landed session
that was present in the batch remains tracked (it is flushed and removed). -/
theorem C5_theorem :
    (∀ (td : Session) (r : Report),
      (td.flight_status = Status.ground → truthy r.on_ground = false →
        ∀ lg, td.positions.getLast? = some lg →
          update_single_aircraft td r = some { td with
            flight_status := Status.takeoff
            takeoff_time := some r.timestamp
            positions := [lg, r]
            last_update_time := r.timestamp }) ∧
      (td.flight_status = Status.ground → truthy r.on_ground = true →
        update_single_aircraft td r = some { td with
          positions := [r]
          last_update_time := r.timestamp }) ∧
      ((td.flight_status = Status.takeoff ∨ td.flight_status = Status.airborne) →
        truthy r.on_ground = false →
        update_single_aircraft td r = some { td with
          flight_status := Status.airborne
          positions := td.positions ++ [r]
          last_update_time := r.timestamp }) ∧
      ((td.flight_status = Status.takeoff ∨ td.flight_status = Status.airborne) →
        truthy r.on_ground = true →
        update_single_aircraft td r = some { td with
          flight_status := Status.landed
          positions := td.positions ++ [r]
          last_update_time := r.timestamp })) ∧
    (∀ (tracker : Tracker) (cur : List (String × Report)) (tr2 : Tracker)
        (fl : List (String × Session)),
      update_tracked_aircraft tracker cur = some (tr2, fl) →
      ∀ p ∈ tr2, ¬(p.2.flight_status = Status.landed ∧
        (lookupKey cur p.1).isSome = true)) := by
  constructor
  · intro td r
    refine ⟨?_, ?_, ?_, ?_⟩
    · intro h1 h2 lg hlg
      simp only [update_single_aircraft, h1, h2, hlg]
    · intro h1 h2
      simp only [update_single_aircraft, h1, h2]
    · intro h1 h2
      rcases h1 with h1 | h1 <;> simp only [update_single_aircraft, h1, h2]
    · intro h1 h2
      rcases h1 with h1 | h1 <;> simp only [update_single_aircraft, h1, h2]
  · intro tracker cur tr2 fl h p hp
    obtain ⟨updated, -, htr2, -⟩ := update_tracked_inv tracker cur tr2 fl h
    rw [htr2] at hp
    have hkeep := (List.mem_filter.mp hp).2
    simp only [landed_in_batch, Bool.not_eq_true', Bool.and_eq_false_iff] at hkeep
    rintro ⟨hst, hsome⟩
    rcases hkeep with hk1 | hk2
    · rw [hsome] at hk1
      exact absurd hk1 (by simp)
    · rw [hst] at hk2
      exact absurd hk2 (by simp)

/-- C5 witness: the ground-to-takeoff row of the table evaluated on a
concrete ground session and airborne report. -/
theorem C5_witness :
    update_single_aircraft groundSession airReport = some { groundSession with
      flight_status := Status.takeoff
      takeoff_time := some 60
      positions := [baseReport 0, airReport]
      last_update_time := 60 } :=
  (C5_theorem.1 groundSession airReport).1 rfl rfl (baseReport 0) rfl

/-- C7: one tick preserves the at-most-one-session-per-icao24 invariant, and
any icao24 tracked after the tick that was not tracked before was created
from a report of this батch that parsed successfully with a truthy on_ground,
both coordinates present and a non-empty callsign. -/
theorem C7_theorem (tracker : Tracker) (states : List RawState) (now : Int)
    (hnd : (tracker.map Prod.fst).Nodup) (t2 : Tracker)
    (fl : List (String × Session))
    (hrun : run_tracking_cycle tracker states now = some (t2, fl)) :
    (t2.map Prod.fst).Nodup ∧
    ∀ k, k ∈ t2.map Prod.fst → lookupKey tracker k = none →
      ∃ st ∈ states, ∃ a, parse_aircraft_state now st = some a ∧
        a.icao24 = k ∧ truthy a.on_ground = true ∧ a.latitude.isSome = true ∧
        a.longitude.isSome = true ∧ a.callsign ≠ "" := by
  obtain ⟨t1, hupd, ht2⟩ := run_cycle_inv tracker states now t2 fl hrun
  obtain ⟨updated, hentries, ht1, -⟩ := update_tracked_inv _ _ _ _ hupd
  have hkeys1 : ((find_new_ground_aircraft now states tracker).foldl
      (fun t a => upsert t a.icao24 (start_tracking_aircraft a))
        tracker).map Prod.fst = updated.map Prod.fst :=
    (update_entries_keys _ _ updated hentries).symm
  have hsub2 : t2.Sublist t1 := ht2 ▸ cleanup_sublist t1 now
  have hsub1 : t1.Sublist updated := ht1 ▸ List.filter_sublist updated
  have hksub : (t2.map Prod.fst).Sublist (updated.map Prod.fst) :=
    (hsub2.trans hsub1).map Prod.fst
  constructor
  · apply List.Nodup.sublist hksub
    rw [← hkeys1]
    exact nodup_keys_foldl_insert_session _ tracker hnd
  · intro k hk hnone
    have hk1 : k ∈ updated.map Prod.fst := hksub.mem hk
    rw [← hkeys1] at hk1
    rcases keys_foldl_insert_session _ tracker k hk1 with hold | ⟨a, ha, haic⟩
    · exact absurd hold ((lookupKey_eq_none tracker k).mp hnone)
    · have hmem := List.mem_filter.mp ha
      obtain ⟨st, hst, hparse⟩ := List.mem_filterMap.mp hmem.1
      have hpred := hmem.2
      simp only [Bool.and_eq_true, bne_iff_ne, ne_eq] at hpred
      obtain ⟨⟨⟨⟨h1, h2⟩, h3⟩, h4⟩, -⟩ := hpred
      exact ⟨st, hst, a, hparse, haic, h1, h3, h2, h4⟩

/-- C7 witness: one tick from an empty tracker over a single qualifying
ground state. -/
theorem C7_witness :
    run_tracking_cycle [] [groundState] 0 =
      some ([("abc123", start_tracking_aircraft groundReport)], []) ∧
    ((([("abc123", start_tracking_aircraft groundReport)] : Tracker).map
      Prod.fst).Nodup ∧
    ∀ k, k ∈ (([("abc123", start_tracking_aircraft groundReport)] : Tracker).map
        Prod.fst) → lookupKey ([] : Tracker) k = none →
      ∃ st ∈ [groundState], ∃ a, parse_aircraft_state 0 st = some a ∧
        a.icao24 = k ∧ truthy a.on_ground = true ∧ a.latitude.isSome = true ∧
        a.longitude.isSome = true ∧ a.callsign ≠ "") :=
  ⟨by rfl, C7_theorem [] [groundState] 0 (by decide) _ [] (by rfl)⟩

/-- C8: the reaper removes every session whose last update is more than the
2-hour window (7200 s) before the current time and removes only by deletion
(the sessions it keeps are exactly untouched members of the input and no
flight is produced by it: the tick's episode list comes entirely from the
update phase); hence after a complete tick no live session is staler than
the window. -/
theorem C8_theorem :
    stale_threshold = 7200 ∧
    (∀ (t : Tracker) (now : Int) (k : String) (s : Session),
      (k, s) ∈ t → now - s.last_update_time > stale_threshold →
      ∀ p ∈ cleanup_stale_tracking t now, p.1 ≠ k) ∧
    (∀ (t : Tracker) (now : Int), ∀ p ∈ cleanup_stale_tracking t now,
      p ∈ t ∧ now - p.2.last_update_time ≤ stale_threshold) ∧
    (∀ (tracker : Tracker) (states : List RawState) (now : Int)
        (t2 : Tracker) (fl : List (String × Session)),
      run_tracking_cycle tracker states now = some (t2, fl) →
      (∀ p ∈ t2, now - p.2.last_update_time ≤ stale_threshold) ∧
      ∃ t1, update_tracked_aircraft
          ((find_new_ground_aircraft now states tracker).foldl
            (fun t a => upsert t a.icao24 (start_tracking_aircraft a)) tracker)
          (current_aircraft_map now states) = some (t1, fl) ∧
        t2 = cleanup_stale_tracking t1 now) := by
  refine ⟨rfl, cleanup_removes, cleanup_mem, ?_⟩
  intro tracker states now t2 fl hrun
  obtain ⟨t1, hupd, ht2⟩ := run_cycle_inv tracker states now t2 fl hrun
  refine ⟨?_, t1, hupd, ht2⟩
  intro p hp
  rw [ht2] at hp
  exact (cleanup_mem t1 now p hp).2

/-- C8 witness: a session one second past the window is removed by the
reaper. -/
theorem C8_witness :
    ∀ p ∈ cleanup_stale_tracking [("abc123", groundSession)] 7201,
      p.1 ≠ "abc123" :=
  C8_theorem.2.1 [("abc123", groundSession)] 7201 "abc123" groundSession
    (by simp) (by decide)

/-- C9: a tracked session whose icao24 appears in none of the tick's raw
states is left with an identical record by the update phase, and that phase
produces no episode for it. -/
theorem C9_theorem (now : Int) (states : List RawState) (tracker : Tracker)
    (icao : String) (tr2 : Tracker) (fl : List (String × Session))
    (habs : ∀ st ∈ states, st.icao24 ≠ icao)
    (hupd : update_tracked_aircraft tracker (current_aircraft_map now states) =
      some (tr2, fl)) :
    lookupKey tr2 icao = lookupKey tracker icao ∧ ∀ p ∈ fl, p.1 ≠ icao := by
  have hnone := lookup_cur_none now states icao habs
  obtain ⟨updated, hentries, htr2, hfl⟩ :=
    update_tracked_inv tracker _ tr2 fl hupd
  constructor
  · rw [htr2]
    exact lookup_filtered_update _ tracker updated icao hnone hentries
  · intro p hp he
    rw [hfl] at hp
    have hl := (List.mem_filter.mp (List.mem_filter.mp hp).1).2
    simp only [landed_in_batch, Bool.and_eq_true] at hl
    rw [he, hnone] at hl
    exact absurd hl.1 (by simp)

/-- C9 witness: a tracked aircraft absent from a batch containing only an
unrelated aircraft is untouched and yields no episode. -/
theorem C9_witness :
    lookupKey [("abc123", groundSession)] "abc123" =
      lookupKey [("abc123", groundSession)] "abc123" ∧
    ∀ p ∈ ([] : List (String × Session)), p.1 ≠ "abc123" :=
  C9_theorem 0 [zzzState] [("abc123", groundSession)] "abc123"
    [("abc123", groundSession)] [] (by decide) (by rfl)

end Birdy
